import Mathlib

/-!
Shallow embedding of the generic resource provider of `pkoukk/go-init-utils`
(package `giu`): the `GiuProvider[T]` registry with its `Add`, `Get`,
`Default`, `SetDefault` operations, the batch-construction helpers
(`NewGiuProviderFromParamsError` and the with-logger variant), and the typed
shutdown adapters (`zapProvider.Shutdown` / `redisProvider.Shutdown`).

Go's `map[string]T` is embedded as an association list with unique keys kept
by insert-or-overwrite (`mapInsert`); one list order models one (unspecified)
Go map iteration order.  Go's comma-ok lookup `v, ok := m[name]` is embedded
as `Option T`.  The zero value a Go `var d T` starts with is embedded via
`Inhabited T`.  Fallible Go factories `func(U) (T, error)` are embedded as
`U → Except E T`.
-/

namespace Giu

/-- One insert-or-overwrite step of a Go map assignment `m[name] = v`. -/
def mapInsert {T : Type} : List (String × T) → String → T → List (String × T)
  | [], n, v => [(n, v)]
  | (k, w) :: rest, n, v =>
      if k = n then (n, v) :: rest else (k, w) :: mapInsert rest n v

/-- Go map read `v, ok := m[name]`: `some v` when found, `none` otherwise. -/
def mapLookup {T : Type} : List (String × T) → String → Option T
  | [], _ => none
  | (k, w) :: rest, n => if k = n then some w else mapLookup rest n

/-- State of `GiuProvider[T]` (src/unnamed/part_003): the default slot `d`
and the `container` map.  The `sync.RWMutex` has no sequential content. -/
structure GiuProvider (T : Type) where
  d : T
  container : List (String × T)

/-- Go's variadic guard `len(isDefault) > 0 && isDefault[0]`. -/
def firstFlag : List Bool → Bool
  | [] => false
  | b :: _ => b

/-- `GiuProvider.Add` (src/unnamed/part_003): sets the default slot when the
flag is passed as true, again when the container was empty before the call,
then inserts `container[name] = d`. -/
def GiuProvider.Add {T : Type} (p : GiuProvider T) (name : String) (d : T)
    (isDefault : List Bool) : GiuProvider T :=
  let dFlag := if firstFlag isDefault then d else p.d
  let dEmpty := if p.container.isEmpty then d else dFlag
  { d := dEmpty, container := mapInsert p.container name d }

/-- `GiuProvider.Get` (src/unnamed/part_003): comma-ok map lookup. -/
def GiuProvider.Get {T : Type} (p : GiuProvider T) (name : String) : Option T :=
  mapLookup p.container name

/-- `GiuProvider.Default` (src/unnamed/part_003): returns the default slot. -/
def GiuProvider.Default {T : Type} (p : GiuProvider T) : T :=
  p.d

/-- `GiuProvider.SetDefault` (src/unnamed/part_003): when `name` is in the
container, point the default slot at its stored value and return true;
otherwise change nothing and return false. -/
def GiuProvider.SetDefault {T : Type} (p : GiuProvider T) (name : String) :
    GiuProvider T × Bool :=
  match mapLookup p.container name with
  | some v => ({ p with d := v }, true)
  | none => (p, false)

/-- `NewGiuProvider` (src/unnamed/part_003): fresh provider with a zero-value
default slot and empty container; when at least one map argument is given,
every entry of the FIRST map only is inserted via `Add` (no flag), in the
map's iteration order, modelled by the list order. -/
def NewGiuProvider {T : Type} [Inhabited T]
    (items : List (List (String × T))) : GiuProvider T :=
  let g : GiuProvider T := { d := default, container := [] }
  match items with
  | [] => g
  | m :: _ => m.foldl (fun acc kv => acc.Add kv.1 kv.2 []) g

/-- `NewProvider` (src/unnamed/part_003): delegates to `NewGiuProvider`. -/
def NewProvider {T : Type} [Inhabited T]
    (items : List (List (String × T))) : GiuProvider T :=
  NewGiuProvider items

/-- The loop body of `NewGiuProviderFromParamsError` (src/unnamed/part_003):
build `itemMap` entry by entry, returning the factory's error unchanged as
soon as one invocation fails. -/
def buildItemMap {T U E : Type} (newFunc : U → Except E T) :
    List (String × U) → List (String × T) → Except E (List (String × T))
  | [], itemMap => .ok itemMap
  | (k, v) :: rest, itemMap =>
      match newFunc v with
      | .error e => .error e
      | .ok item => buildItemMap newFunc rest (mapInsert itemMap k item)

/-- `NewGiuProviderFromParamsError` (src/unnamed/part_003): run the factory
once per key; on the first error return `(nil, err)`, otherwise wrap the
finished `itemMap` in a fresh provider. -/
def NewGiuProviderFromParamsError {T U E : Type} [Inhabited T]
    (newFunc : U → Except E T) (params : List (String × U)) :
    Except E (GiuProvider T) :=
  match buildItemMap newFunc params [] with
  | .error e => .error e
  | .ok itemMap => .ok (NewGiuProvider [itemMap])

/-- The loop body of `NewGiuProviderWithLoggerFromParamsError`
(src/unnamed/part_003): identical to `buildItemMap` but the factory also
receives the shared logger. -/
def buildItemMapWithLogger {T U L E : Type} (newFunc : U → L → Except E T)
    (logger : L) :
    List (String × U) → List (String × T) → Except E (List (String × T))
  | [], itemMap => .ok itemMap
  | (k, v) :: rest, itemMap =>
      match newFunc v logger with
      | .error e => .error e
      | .ok item => buildItemMapWithLogger newFunc logger rest (mapInsert itemMap k item)

/-- `NewGiuProviderWithLoggerFromParamsError` (src/unnamed/part_003). -/
def NewGiuProviderWithLoggerFromParamsError {T U L E : Type} [Inhabited T]
    (newFunc : U → L → Except E T) (params : List (String × U)) (logger : L) :
    Except E (GiuProvider T) :=
  match buildItemMapWithLogger newFunc logger params [] with
  | .error e => .error e
  | .ok itemMap => .ok (NewGiuProvider [itemMap])

/-- The teardown loop shared by `zapProvider.Shutdown` (per-instance
operation `v.Sync()`) and `redisProvider.Shutdown` (per-instance operation
`v.Close()`) in src/unnamed/part_003: visit the container's values in
iteration order, return the first close error immediately, `nil` when every
close succeeds.  `closeFn v = some e` embeds a failing close, `none` a
successful one. -/
def providerShutdown {T E : Type} (closeFn : T → Option E) : List T → Option E
  | [] => none
  | v :: rest =>
      match closeFn v with
      | some e => some e
      | none => providerShutdown closeFn rest

/-- The per-instance teardown step of `gormProvider.Shutdown`
(src/unnamed/part_003): first retrieve the underlying handle with `v.DB()`;
when that retrieval fails the instance is skipped silently, otherwise the
error of `db.Close()` (if any) is surfaced.  `dbOf v = none` embeds a
failing `v.DB()`, and `closeRes db` the `db.Close()` outcome; the gorm
adapter's loop is `providerShutdown (gormCloseFn dbOf closeRes)`. -/
def gormCloseFn {T D E : Type} (dbOf : T → Option D) (closeRes : D → Option E) :
    T → Option E :=
  fun v =>
    match dbOf v with
    | none => none
    | some db => closeRes db

/-- Instrumented form of `providerShutdown`: additionally lists, in order,
exactly the instances whose close operation the loop invoked. -/
def shutdownVisited {T E : Type} (closeFn : T → Option E) : List T → List T
  | [] => []
  | v :: rest =>
      match closeFn v with
      | some _ => [v]
      | none => v :: shutdownVisited closeFn rest

/-- A client-visible operation sequence on one registry: the two mutators. -/
inductive Op (T : Type) where
  | add (name : String) (v : T) (isDefault : List Bool)
  | setDefault (name : String)

/-- Apply one mutator to the registry state. -/
def applyOp {T : Type} (p : GiuProvider T) : Op T → GiuProvider T
  | .add n v f => p.Add n v f
  | .setDefault n => (p.SetDefault n).1

/-- Apply a whole operation sequence, left to right. -/
def applyOps {T : Type} (p : GiuProvider T) (ops : List (Op T)) : GiuProvider T :=
  ops.foldl applyOp p

/-- A flag-free `Add` sequence (the shape `NewGiuProvider` seeding uses). -/
def addSeq {T : Type} (p : GiuProvider T) (l : List (String × T)) : GiuProvider T :=
  l.foldl (fun acc kv => acc.Add kv.1 kv.2 []) p

/-- A value `v` is stored in the container: some name looks it up. -/
def valueStored {T : Type} (c : List (String × T)) (v : T) : Prop :=
  ∃ k, mapLookup c k = some v

/-- Spec invariant I1, as claimed: a non-empty container stores the value
held in the default slot. -/
def defaultInvariant {T : Type} (p : GiuProvider T) : Prop :=
  p.container ≠ [] → valueStored p.container p.d

/-- An operation is safe for invariant I1 when it is not a flag-free `Add`
that, into a non-empty container, overwrites the name currently looking up
to the default value. -/
def safeStep {T : Type} (p : GiuProvider T) : Op T → Prop
  | .add n _ f =>
      firstFlag f = true ∨ p.container = [] ∨ mapLookup p.container n ≠ some p.d
  | .setDefault _ => True

/-- Every step of the sequence is safe in the state it runs from. -/
def safeTrace {T : Type} (p : GiuProvider T) : List (Op T) → Prop
  | [] => True
  | op :: rest => safeStep p op ∧ safeTrace (applyOp p op) rest

/-- A fallible factory failing exactly on the parameter value 0; used to
exercise the batch-construction paths on concrete inputs. -/
def failOnZero : Nat → Except Nat Nat :=
  fun v => if v = 0 then .error 7 else .ok v

/-- A per-instance close operation failing exactly on the instance 2; used
to exercise the shutdown loop on concrete inputs. -/
def failOnTwo : Nat → Option Nat :=
  fun v => if v = 2 then some 9 else none

/-! ### Basic lemmas about the embedded map operations -/

theorem mapInsert_ne_nil {T : Type} (c : List (String × T)) (n : String) (v : T) :
    mapInsert c n v ≠ [] := by
  cases c with
  | nil => simp [mapInsert]
  | cons kw rest =>
      obtain ⟨k, w⟩ := kw
      simp only [mapInsert]
      split <;> simp

theorem isEmpty_mapInsert {T : Type} (c : List (String × T)) (n : String) (v : T) :
    (mapInsert c n v).isEmpty = false := by
  cases hc : mapInsert c n v with
  | nil => exact absurd hc (mapInsert_ne_nil c n v)
  | cons a t => rfl

theorem isEmpty_false_of_ne_nil {T : Type} {l : List (String × T)} (h : l ≠ []) :
    l.isEmpty = false := by
  cases l with
  | nil => exact absurd rfl h
  | cons a t => rfl

theorem mapLookup_mapInsert_self {T : Type} (c : List (String × T)) (n : String) (v : T) :
    mapLookup (mapInsert c n v) n = some v := by
  induction c with
  | nil => simp [mapInsert, mapLookup]
  | cons kw rest ih =>
      obtain ⟨k, w⟩ := kw
      by_cases h : k = n
      · simp [mapInsert, mapLookup, h]
      · simp [mapInsert, mapLookup, h, ih]

theorem mapLookup_mapInsert_ne {T : Type} (c : List (String × T)) {n k : String}
    (v : T) (h : k ≠ n) : mapLookup (mapInsert c n v) k = mapLookup c k := by
  induction c with
  | nil =>
      have hnk : n ≠ k := fun hh => h hh.symm
      simp [mapInsert, mapLookup, hnk]
  | cons kw rest ih =>
      obtain ⟨k', w⟩ := kw
      by_cases hk : k' = n
      · subst hk
        have hnk : k' ≠ k := fun hh => h hh.symm
        simp [mapInsert, mapLookup, hnk]
      · simp [mapInsert, mapLookup, hk, ih]

theorem mapInsert_of_lookup_none {T : Type} (c : List (String × T)) (n : String)
    (v : T) (h : mapLookup c n = none) : mapInsert c n v = c ++ [(n, v)] := by
  induction c with
  | nil => rfl
  | cons kw rest ih =>
      obtain ⟨k, w⟩ := kw
      by_cases hk : k = n
      · simp [mapLookup, hk] at h
      · simp only [mapLookup, if_neg hk] at h
        simp [mapInsert, hk, ih h]

/-! ### Claim theorems -/

/-- Claim C2, counterexample: the "only if" direction of the claimed
biconditional fails.  With container `{"a": 5}` and default `5`, the call
`Add("b", 5)` with no flag into a non-empty container still leaves
`Default() = 5 = v`, even though `makeDefault` was not passed as true and
the container was not empty before the call. -/
theorem add_default_rule_cex :
    ((((NewGiuProvider ([] : List (List (String × Nat)))).Add "a" 5 []).Add "b" 5 []).Default = 5) ∧
    firstFlag [] ≠ true ∧
    ((NewGiuProvider ([] : List (List (String × Nat)))).Add "a" 5 []).container ≠ [] := by
  refine ⟨rfl, by decide, ?_⟩
  exact List.cons_ne_nil _ _

/-- Claim C2 (amended): after `Add(name, v, makeDefault)`, the default slot
holds `v` if `makeDefault` was passed as true or the container was empty
immediately before the call, and is otherwise left unchanged (so `Default()`
can still equal `v` when the previous default already equalled `v`). -/
theorem add_default_rule {T : Type} (p : GiuProvider T) (name : String)
    (v : T) (f : List Bool) :
    (p.Add name v f).Default =
      if firstFlag f || p.container.isEmpty then v else p.Default := by
  simp only [GiuProvider.Add, GiuProvider.Default]
  cases hf : firstFlag f <;> cases he : p.container.isEmpty <;> simp [hf, he]

/-- Claim C3: `SetDefault(name)` returns true iff `name` is present in the
container; when present the default slot is repointed at the stored value,
when absent it is left unchanged; the container is never modified, so on a
missing name the whole registry state is unchanged and the boolean is the
only error channel. -/
theorem setDefault_contract {T : Type} (p : GiuProvider T) (name : String) :
    (p.SetDefault name).2 = (mapLookup p.container name).isSome ∧
    (p.SetDefault name).1.Default = (mapLookup p.container name).getD p.Default ∧
    (p.SetDefault name).1.container = p.container := by
  cases h : mapLookup p.container name <;>
    simp [GiuProvider.SetDefault, GiuProvider.Default, h]

/-- Claim C8: after `Add(name, v1, f1); Add(name, v2)` (second call without
the flag), `Get(name)` returns `v2` with found = true, and the default slot
is exactly what it was after the first call — in particular still `v1`
whenever `v1` had become the default — since the overwrite never touches it;
`Add` is total, so overwriting is not an error. -/
theorem overwrite_semantics {T : Type} (p : GiuProvider T) (name : String)
    (v1 v2 : T) (f1 : List Bool) :
    ((p.Add name v1 f1).Add name v2 []).Get name = some v2 ∧
    ((p.Add name v1 f1).Add name v2 []).Default = (p.Add name v1 f1).Default := by
  constructor
  · simp [GiuProvider.Add, GiuProvider.Get, mapLookup_mapInsert_self]
  · simp [GiuProvider.Add, GiuProvider.Default, firstFlag,
      isEmpty_mapInsert p.container name v1]

/-- Claim C9: the variadic constructors consume only the first map argument —
a call with two or more maps yields exactly the registry built from the
first map alone, so no entry of a later map is inserted or can become the
default — and a call with zero maps yields an empty container. -/
theorem variadic_first_map_only {T : Type} [Inhabited T]
    (m1 : List (String × T)) (rest : List (List (String × T))) :
    NewGiuProvider (m1 :: rest) = NewGiuProvider [m1] ∧
    NewProvider (m1 :: rest) = NewProvider [m1] ∧
    (NewGiuProvider ([] : List (List (String × T)))).container = [] ∧
    (NewProvider ([] : List (List (String × T)))).container = [] :=
  ⟨rfl, rfl, rfl, rfl⟩

/-- One safe step preserves invariant I1. -/
theorem defaultInvariant_applyOp {T : Type} (p : GiuProvider T) (op : Op T)
    (hp : defaultInvariant p) (hs : safeStep p op) :
    defaultInvariant (applyOp p op) := by
  cases op with
  | add n v f =>
      intro _
      by_cases hflag : firstFlag f = true
      · refine ⟨n, ?_⟩
        simp [applyOp, GiuProvider.Add, hflag, mapLookup_mapInsert_self]
      · by_cases hemp : p.container = []
        · refine ⟨n, ?_⟩
          simp [applyOp, GiuProvider.Add, hemp, mapInsert, mapLookup]
        · have hnv : mapLookup p.container n ≠ some p.d := by
            rcases hs with h | h | h
            · exact absurd h hflag
            · exact absurd h hemp
            · exact h
          obtain ⟨k, hk⟩ := hp hemp
          have hkn : k ≠ n := fun hh => hnv (hh ▸ hk)
          refine ⟨k, ?_⟩
          have hd : (applyOp p (Op.add n v f)).d = p.d := by
            simp [applyOp, GiuProvider.Add, hflag, isEmpty_false_of_ne_nil hemp]
          have hc : (applyOp p (Op.add n v f)).container = mapInsert p.container n v := rfl
          rw [hd, hc, mapLookup_mapInsert_ne p.container v hkn]
          exact hk
  | setDefault n =>
      cases hl : mapLookup p.container n with
      | none =>
          have : applyOp p (Op.setDefault n) = p := by
            simp [applyOp, GiuProvider.SetDefault, hl]
          rw [this]; exact hp
      | some v =>
          intro _
          refine ⟨n, ?_⟩
          simp [applyOp, GiuProvider.SetDefault, hl]

/-- Claim C1, counterexample: from an empty registry, `Add("a", 1)` then
`Add("a", 2)` (no flag) leaves the default slot holding `1` while the
non-empty container stores only the value `2` — the overwrite of the name
holding the default breaks invariant I1. -/
theorem default_invariant_cex :
    ¬ defaultInvariant (applyOps (NewGiuProvider ([] : List (List (String × Nat))))
        [.add "a" 1 [], .add "a" 2 []]) := by
  intro h
  have hstate : applyOps (NewGiuProvider ([] : List (List (String × Nat))))
      [.add "a" 1 [], .add "a" 2 []] =
      ({ d := 1, container := [("a", 2)] } : GiuProvider Nat) := by rfl
  rw [hstate] at h
  obtain ⟨k, hk⟩ := h (List.cons_ne_nil _ _)
  by_cases hak : "a" = k
  · rw [show mapLookup [("a", (2 : Nat))] k = some 2 by simp [mapLookup, hak]] at hk
    exact absurd (Option.some.inj hk) (by decide)
  · rw [show mapLookup [("a", (2 : Nat))] k = none by simp [mapLookup, hak]] at hk
    exact Option.noConfusion hk

/-- Claim C1 (amended): invariant I1 — a non-empty container stores the
value held in the default slot — holds after every sequence of `Add` and
`SetDefault` operations from any state satisfying it, provided no flag-free
`Add` into a non-empty container overwrites the name currently storing the
default value. -/
theorem default_invariant_holds {T : Type} (p : GiuProvider T) (ops : List (Op T))
    (hp : defaultInvariant p) (hs : safeTrace p ops) :
    defaultInvariant (applyOps p ops) := by
  induction ops generalizing p with
  | nil => exact hp
  | cons op rest ih =>
      obtain ⟨h1, h2⟩ := hs
      exact ih (applyOp p op) (defaultInvariant_applyOp p op hp h1) h2

/-- Witness for `default_invariant_holds` at a concrete run: an empty
registry, then `Add("a", 1)` followed by `SetDefault("a")`. -/
theorem default_invariant_holds_wit :
    defaultInvariant (applyOps ({ d := 0, container := [] } : GiuProvider Nat)
      [.add "a" 1 [], .setDefault "a"]) :=
  default_invariant_holds { d := 0, container := [] }
    [.add "a" 1 [], .setDefault "a"]
    (fun h => absurd rfl h)
    ⟨Or.inr (Or.inl rfl), trivial, trivial⟩

/-- Over a flag-free `Add` sequence, a registry whose container is already
non-empty keeps its default slot unchanged (and stays non-empty). -/
theorem addSeq_d_of_ne_nil {T : Type} (l : List (String × T)) (p : GiuProvider T)
    (hne : p.container ≠ []) :
    (addSeq p l).d = p.d ∧ (addSeq p l).container ≠ [] := by
  induction l generalizing p with
  | nil => exact ⟨rfl, hne⟩
  | cons kv rest ih =>
      have hstep : (p.Add kv.1 kv.2 []).d = p.d := by
        simp [GiuProvider.Add, firstFlag, isEmpty_false_of_ne_nil hne]
      have hne2 : (p.Add kv.1 kv.2 []).container ≠ [] :=
        mapInsert_ne_nil p.container kv.1 kv.2
      have : addSeq p (kv :: rest) = addSeq (p.Add kv.1 kv.2 []) rest := rfl
      rw [this]
      obtain ⟨ha, hb⟩ := ih (p.Add kv.1 kv.2 []) hne2
      exact ⟨ha.trans hstep, hb⟩

/-- Claim C4, counterexample: two flag-free `Add` calls with distinct names
`("a", 1)` then `("b", 2)` from an empty registry leave `Default() = 1`,
the FIRST insertion, not the most recent one (`2`); likewise seeding
`NewGiuProvider` from a two-entry map makes the entry visited first the
default. -/
theorem default_first_insert_cex :
    (addSeq (NewGiuProvider ([] : List (List (String × Nat)))) [("a", 1), ("b", 2)]).Default = 1 ∧
    (addSeq (NewGiuProvider ([] : List (List (String × Nat)))) [("a", 1), ("b", 2)]).Default ≠ 2 ∧
    (NewGiuProvider [[("a", (1 : Nat)), ("b", 2)]]).Default = 1 := by
  refine ⟨rfl, ?_, rfl⟩
  intro h
  exact absurd h (by decide)

/-- Claim C4 (amended): for every sequence of flag-free `Add` calls with
pairwise-distinct names starting from an empty registry, `Default()`
afterwards returns the value of the FIRST inserted entry; in particular a
registry seeded in one pass by `NewGiuProvider` from a mapping with more
than one entry takes as default the entry the construction iteration visits
first (and that iteration order is unspecified by the Go map). -/
theorem default_first_insert {T : Type} [Inhabited T] (kv : String × T)
    (rest : List (String × T))
    (hnodup : (((kv :: rest)).map Prod.fst).Nodup) :
    (addSeq (NewGiuProvider []) (kv :: rest)).Default = kv.2 ∧
    (NewGiuProvider [kv :: rest]).Default = kv.2 := by
  have hfirst : ((NewGiuProvider ([] : List (List (String × T)))).Add kv.1 kv.2 []).d = kv.2 := by
    simp [NewGiuProvider, GiuProvider.Add]
  have hne : ((NewGiuProvider ([] : List (List (String × T)))).Add kv.1 kv.2 []).container ≠ [] :=
    mapInsert_ne_nil _ kv.1 kv.2
  have hmain : (addSeq (NewGiuProvider ([] : List (List (String × T)))) (kv :: rest)).Default = kv.2 := by
    have hstep : addSeq (NewGiuProvider ([] : List (List (String × T)))) (kv :: rest)
        = addSeq ((NewGiuProvider []).Add kv.1 kv.2 []) rest := rfl
    rw [GiuProvider.Default, hstep, (addSeq_d_of_ne_nil rest _ hne).1, hfirst]
  refine ⟨hmain, ?_⟩
  have hseed : NewGiuProvider [kv :: rest]
      = addSeq (NewGiuProvider ([] : List (List (String × T)))) (kv :: rest) := rfl
  rw [hseed]
  exact hmain

/-- Witness for `default_first_insert` at the concrete two-entry sequence
`("a", 1), ("b", 2)`. -/
theorem default_first_insert_wit :
    (addSeq (NewGiuProvider ([] : List (List (String × Nat)))) [("a", 1), ("b", 2)]).Default = (1 : Nat) ∧
    (NewGiuProvider [[("a", (1 : Nat)), ("b", 2)]]).Default = 1 :=
  default_first_insert ("a", 1) [("b", 2)] (by decide)

/-- When some entry's factory fails, the item-map loop returns an error. -/
theorem buildItemMap_error_of_mem {T U E : Type} (newFunc : U → Except E T) :
    ∀ (params : List (String × U)) (acc : List (String × T)),
    (∃ ku ∈ params, ∃ e, newFunc ku.2 = .error e) →
    ∃ e, buildItemMap newFunc params acc = .error e := by
  intro params
  induction params with
  | nil =>
      intro acc h
      obtain ⟨ku, hm, _⟩ := h
      exact absurd hm (List.not_mem_nil ku)
  | cons kv rest ih =>
      intro acc h
      obtain ⟨k, v⟩ := kv
      cases hnf : newFunc v with
      | error e => exact ⟨e, by simp [buildItemMap, hnf]⟩
      | ok t =>
          obtain ⟨ku, hm, he⟩ := h
          rcases List.mem_cons.mp hm with h1 | h2
          · obtain ⟨e, he⟩ := he
            rw [h1] at he
            rw [hnf] at he
            exact Except.noConfusion he
          · obtain ⟨e, hrest⟩ := ih (mapInsert acc k t) ⟨ku, h2, he⟩
            exact ⟨e, by simp [buildItemMap, hnf, hrest]⟩

/-- When every entry's factory succeeds, the item-map loop succeeds and, for
pairwise-distinct parameter keys disjoint from the accumulator, produces one
item per parameter key, in order, appended to the accumulator. -/
theorem buildItemMap_ok_keys {T U E : Type} (newFunc : U → Except E T) :
    ∀ (params : List (String × U)) (acc : List (String × T)),
    (∀ ku ∈ params, ∃ t, newFunc ku.2 = .ok t) →
    (∀ k ∈ params.map Prod.fst, mapLookup acc k = none) →
    (params.map Prod.fst).Nodup →
    ∃ itemMap, buildItemMap newFunc params acc = .ok itemMap ∧
      itemMap.map Prod.fst = acc.map Prod.fst ++ params.map Prod.fst := by
  intro params
  induction params with
  | nil =>
      intro acc _ _ _
      exact ⟨acc, rfl, by simp⟩
  | cons kv rest ih =>
      intro acc hok hdisj hnodup
      obtain ⟨k, v⟩ := kv
      obtain ⟨t, ht⟩ := hok (k, v) (List.mem_cons_self _ _)
      have hlk : mapLookup acc k = none := hdisj k (by simp)
      have hins : mapInsert acc k t = acc ++ [(k, t)] :=
        mapInsert_of_lookup_none acc k t hlk
      have hcons : (k :: rest.map Prod.fst).Nodup := hnodup
      have hpair := List.nodup_cons.mp hcons
      have hdisj2 : ∀ k1 ∈ rest.map Prod.fst, mapLookup (mapInsert acc k t) k1 = none := by
        intro k1 hk1
        have hne : k1 ≠ k := fun hh => hpair.1 (hh ▸ hk1)
        rw [mapLookup_mapInsert_ne acc t hne]
        exact hdisj k1 (by simp [hk1])
      obtain ⟨itemMap, h1, h2⟩ := ih (mapInsert acc k t)
        (fun ku hku => hok ku (List.mem_cons_of_mem _ hku)) hdisj2 hpair.2
      refine ⟨itemMap, ?_, ?_⟩
      · rw [show buildItemMap newFunc ((k, v) :: rest) acc
            = buildItemMap newFunc rest (mapInsert acc k t) by simp [buildItemMap, ht]]
        exact h1
      · rw [h2, hins]
        simp

/-- `addSeq` grows the container by folding `mapInsert` over the entries. -/
theorem addSeq_container {T : Type} :
    ∀ (l : List (String × T)) (p : GiuProvider T),
    (addSeq p l).container = l.foldl (fun c kv => mapInsert c kv.1 kv.2) p.container := by
  intro l
  induction l with
  | nil => intro p; rfl
  | cons kv rest ih =>
      intro p
      have h1 : addSeq p (kv :: rest) = addSeq (p.Add kv.1 kv.2 []) rest := rfl
      rw [h1, ih]
      rfl

/-- Folding `mapInsert` over entries with fresh, pairwise-distinct keys
appends them to the accumulator unchanged. -/
theorem foldl_mapInsert_disjoint {T : Type} :
    ∀ (l : List (String × T)) (acc : List (String × T)),
    (∀ k ∈ l.map Prod.fst, mapLookup acc k = none) →
    (l.map Prod.fst).Nodup →
    l.foldl (fun c kv => mapInsert c kv.1 kv.2) acc = acc ++ l := by
  intro l
  induction l with
  | nil => intro acc _ _; simp
  | cons kv rest ih =>
      intro acc hdisj hnodup
      obtain ⟨k, v⟩ := kv
      have hlk : mapLookup acc k = none := hdisj k (by simp)
      have hins : mapInsert acc k v = acc ++ [(k, v)] :=
        mapInsert_of_lookup_none acc k v hlk
      have hcons : (k :: rest.map Prod.fst).Nodup := hnodup
      have hpair := List.nodup_cons.mp hcons
      have hdisj2 : ∀ k1 ∈ rest.map Prod.fst, mapLookup (mapInsert acc k v) k1 = none := by
        intro k1 hk1
        have hne : k1 ≠ k := fun hh => hpair.1 (hh ▸ hk1)
        rw [mapLookup_mapInsert_ne acc v hne]
        exact hdisj k1 (by simp [hk1])
      have hstep : ((k, v) :: rest).foldl (fun c kv => mapInsert c kv.1 kv.2) acc
          = rest.foldl (fun c kv => mapInsert c kv.1 kv.2) (mapInsert acc k v) := rfl
      rw [hstep, ih (mapInsert acc k v) hdisj2 hpair.2, hins]
      simp

/-- Seeding a fresh provider from a map with pairwise-distinct keys yields
exactly that map as the container. -/
theorem newGiuProvider_container {T : Type} [Inhabited T] (m : List (String × T))
    (hnodup : (m.map Prod.fst).Nodup) :
    (NewGiuProvider [m]).container = m := by
  have h1 : NewGiuProvider [m]
      = addSeq ({ d := default, container := [] } : GiuProvider T) m := rfl
  rw [h1, addSeq_container]
  have h2 := foldl_mapInsert_disjoint m [] (fun k _ => rfl) hnodup
  simpa using h2

/-- The with-logger item-map loop is the plain loop at the partially applied
factory. -/
theorem buildItemMapWithLogger_eq {T U L E : Type} (newFunc : U → L → Except E T)
    (logger : L) :
    ∀ (params : List (String × U)) (acc : List (String × T)),
    buildItemMapWithLogger newFunc logger params acc =
      buildItemMap (fun u => newFunc u logger) params acc := by
  intro params
  induction params with
  | nil => intro acc; rfl
  | cons kv rest ih =>
      intro acc
      obtain ⟨k, v⟩ := kv
      cases h : newFunc v logger with
      | error e => simp [buildItemMapWithLogger, buildItemMap, h]
      | ok t => simp [buildItemMapWithLogger, buildItemMap, h, ih]

/-- Claim C5: batch construction is fail-fast and all-or-nothing.  If some
parameter's factory fails, `NewGiuProviderFromParamsError` returns an error
and no registry (the `.error` result carries no partial registry); if every
factory succeeds, it returns a registry whose container holds exactly one
entry per parameter key; and the with-logger variant is the plain variant at
the partially applied factory, so the same holds for it. -/
theorem failfast_construction {T U L E : Type} [Inhabited T]
    (newFunc : U → Except E T) (params : List (String × U))
    (nf2 : U → L → Except E T) (logger : L)
    (hnodup : (params.map Prod.fst).Nodup) :
    ((∃ ku ∈ params, ∃ e, newFunc ku.2 = .error e) →
        ∃ e, NewGiuProviderFromParamsError newFunc params = .error e) ∧
    ((∀ ku ∈ params, ∃ t, newFunc ku.2 = .ok t) →
        ∃ g, NewGiuProviderFromParamsError newFunc params = .ok g ∧
          g.container.map Prod.fst = params.map Prod.fst) ∧
    NewGiuProviderWithLoggerFromParamsError nf2 params logger =
      NewGiuProviderFromParamsError (fun u => nf2 u logger) params := by
  refine ⟨?_, ?_, ?_⟩
  · intro h
    obtain ⟨e, he⟩ := buildItemMap_error_of_mem newFunc params [] h
    exact ⟨e, by simp [NewGiuProviderFromParamsError, he]⟩
  · intro h
    obtain ⟨itemMap, h1, h2⟩ := buildItemMap_ok_keys newFunc params []
      h (fun k _ => rfl) hnodup
    have hkeys : itemMap.map Prod.fst = params.map Prod.fst := by simpa using h2
    refine ⟨NewGiuProvider [itemMap], by simp [NewGiuProviderFromParamsError, h1], ?_⟩
    rw [newGiuProvider_container itemMap (hkeys.symm ▸ hnodup), hkeys]
  · simp [NewGiuProviderWithLoggerFromParamsError, NewGiuProviderFromParamsError,
      buildItemMapWithLogger_eq]

/-- Witness for `failfast_construction` at the concrete factory `failOnZero`
with parameters `{"a": 1, "b": 2}` (both succeed). -/
theorem failfast_construction_wit :
    ∃ g, NewGiuProviderFromParamsError failOnZero [("a", 1), ("b", 2)] = .ok g ∧
      g.container.map Prod.fst = ["a", "b"] :=
  (failfast_construction failOnZero [("a", 1), ("b", 2)]
      (fun u (_ : Unit) => failOnZero u) () (by decide)).2.1
    (by
      intro ku hku
      simp only [List.mem_cons, List.not_mem_nil, or_false] at hku
      rcases hku with h | h
      · rw [h]; exact ⟨1, rfl⟩
      · rw [h]; exact ⟨2, rfl⟩)

/-- A failed item-map loop returns exactly some entry's own factory error. -/
theorem buildItemMap_error_mem {T U E : Type} (newFunc : U → Except E T) :
    ∀ (params : List (String × U)) (acc : List (String × T)) (e : E),
    buildItemMap newFunc params acc = .error e →
    ∃ ku ∈ params, newFunc ku.2 = .error e := by
  intro params
  induction params with
  | nil =>
      intro acc e h
      exact Except.noConfusion h
  | cons kv rest ih =>
      intro acc e h
      obtain ⟨k, v⟩ := kv
      cases hnf : newFunc v with
      | error e2 =>
          rw [show buildItemMap newFunc ((k, v) :: rest) acc = .error e2 by
            simp [buildItemMap, hnf]] at h
          injection h with h2
          exact ⟨(k, v), List.mem_cons_self _ _, by rw [hnf, h2]⟩
      | ok t =>
          rw [show buildItemMap newFunc ((k, v) :: rest) acc
              = buildItemMap newFunc rest (mapInsert acc k t) by
            simp [buildItemMap, hnf]] at h
          obtain ⟨ku, hm, he⟩ := ih (mapInsert acc k t) e h
          exact ⟨ku, List.mem_cons_of_mem _ hm, he⟩

/-- Claim C6, counterexample: the construction error does not identify the
failing key.  The factory `failOnZero` fails on the value 0 with error 7 and
succeeds elsewhere; the batch `{"a": 0, "b": 1}` (where "a" fails) and the
batch `{"a": 1, "b": 0}` (where "b" fails) return the identical error 7, so
the returned error cannot identify which named construction failed. -/
theorem construction_error_cex :
    failOnZero 0 = .error 7 ∧ failOnZero 1 = .ok 1 ∧
    NewGiuProviderFromParamsError failOnZero [("a", 0), ("b", 1)] = .error 7 ∧
    NewGiuProviderFromParamsError failOnZero [("a", 1), ("b", 0)] = .error 7 :=
  ⟨rfl, rfl, rfl, rfl⟩

/-- Claim C6 (amended): a failed batch construction returns exactly the
underlying error produced by some failing factory invocation, unchanged —
it carries the cause but does not name the failing key. -/
theorem construction_error_unwrapped {T U E : Type} [Inhabited T]
    (newFunc : U → Except E T) (params : List (String × U)) (e : E)
    (h : NewGiuProviderFromParamsError newFunc params = .error e) :
    ∃ ku ∈ params, newFunc ku.2 = .error e := by
  cases hb : buildItemMap newFunc params [] with
  | error e2 =>
      rw [show NewGiuProviderFromParamsError newFunc params = Except.error e2 by
        simp [NewGiuProviderFromParamsError, hb]] at h
      injection h with h2
      exact h2 ▸ buildItemMap_error_mem newFunc params [] e2 hb
  | ok m =>
      rw [show NewGiuProviderFromParamsError newFunc params
          = Except.ok (NewGiuProvider [m]) by
        simp [NewGiuProviderFromParamsError, hb]] at h
      exact Except.noConfusion h

/-- Witness for `construction_error_unwrapped` at the failing batch
`{"a": 0}` under `failOnZero`. -/
theorem construction_error_unwrapped_wit :
    ∃ ku ∈ [("a", (0 : Nat))], failOnZero ku.2 = Except.error 7 :=
  construction_error_unwrapped failOnZero [("a", 0)] 7 rfl

/-- A shutdown loop over all-succeeding closes returns nil after visiting
every instance, in order, exactly once. -/
theorem providerShutdown_ok {T E : Type} (closeFn : T → Option E) :
    ∀ (l : List T), (∀ y ∈ l, closeFn y = none) →
      providerShutdown closeFn l = none ∧ shutdownVisited closeFn l = l := by
  intro l
  induction l with
  | nil => intro _; exact ⟨rfl, rfl⟩
  | cons y rest ih =>
      intro hok
      have hy : closeFn y = none := hok y (List.mem_cons_self _ _)
      obtain ⟨h1, h2⟩ := ih (fun z hz => hok z (List.mem_cons_of_mem _ hz))
      exact ⟨by simp [providerShutdown, hy, h1], by simp [shutdownVisited, hy, h2]⟩

/-- A shutdown loop hitting its first failing close returns that error at
once and never invokes the closes of the instances after it. -/
theorem providerShutdown_err {T E : Type} (closeFn : T → Option E) :
    ∀ (l1 : List T) (x : T) (l2 : List T) (e : E),
      (∀ y ∈ l1, closeFn y = none) → closeFn x = some e →
      providerShutdown closeFn (l1 ++ x :: l2) = some e ∧
        shutdownVisited closeFn (l1 ++ x :: l2) = l1 ++ [x] := by
  intro l1
  induction l1 with
  | nil =>
      intro x l2 e _ hx
      exact ⟨by simp [providerShutdown, hx], by simp [shutdownVisited, hx]⟩
  | cons y rest ih =>
      intro x l2 e h1 hx
      have hy : closeFn y = none := h1 y (List.mem_cons_self _ _)
      obtain ⟨ha, hb⟩ := ih x l2 e (fun z hz => h1 z (List.mem_cons_of_mem _ hz)) hx
      exact ⟨by simp [providerShutdown, hy, ha], by simp [shutdownVisited, hy, hb]⟩

/-- Claim C7: fail-fast typed shutdown.  When every per-instance close
succeeds, the shutdown loop shared by the zap and redis adapters returns nil
and invokes the close of every held instance exactly once; when the closes
succeed up to an instance `x` whose close fails with `e`, it returns `e`
immediately and the instances after `x` in iteration order are never
visited. -/
theorem failfast_shutdown {T E : Type} (closeFn : T → Option E)
    (l l1 l2 : List T) (x : T) (e : E)
    (hok : ∀ y ∈ l, closeFn y = none)
    (h1 : ∀ y ∈ l1, closeFn y = none) (hx : closeFn x = some e) :
    (providerShutdown closeFn l = none ∧ shutdownVisited closeFn l = l) ∧
    (providerShutdown closeFn (l1 ++ x :: l2) = some e ∧
      shutdownVisited closeFn (l1 ++ x :: l2) = l1 ++ [x]) :=
  ⟨providerShutdown_ok closeFn l hok, providerShutdown_err closeFn l1 x l2 e h1 hx⟩

/-- Witness for `failfast_shutdown` at the concrete close operation
`failOnTwo` over the instance lists `[1, 3]` (all succeed) and
`[1] ++ 2 :: [3]` (the instance 2 fails with error 9). -/
theorem failfast_shutdown_wit :
    (providerShutdown failOnTwo [1, 3] = none ∧
      shutdownVisited failOnTwo [1, 3] = [1, 3]) ∧
    (providerShutdown failOnTwo ([1] ++ 2 :: [3]) = some 9 ∧
      shutdownVisited failOnTwo ([1] ++ 2 :: [3]) = [1] ++ [2]) :=
  failfast_shutdown failOnTwo [1, 3] [1] [3] 2 9 (by decide) (by decide) (by decide)

end Giu
